import Mathlib

/-!
Shallow embedding of the row-lookup cache, type-ahead search and column
value/string accessors of `ObjectListView.py` (classes `ObjectListView`,
`VirtualObjectListView`, `FastObjectListView`, `ColumnDefn`), together with
theorems settling the specification's claims about them.

Python strings are modelled as lists of code points (`List Char`); Python
`None` is `Option.none` where a value may be absent.  Widget-side calls
(`Refresh`, `RefreshItems`, `wx.Bell`, selection/focus updates) have no
effect on the modelled state; a search's outcome records which of
`_SelectAndFocus(i)` or `wx.Bell()` the code performed.
-/

namespace OLV

/-- `ObjectListView.SEARCH_KEYSTROKE_DELAY`: typing gaps above this many
milliseconds start a new search. -/
def SEARCH_KEYSTROKE_DELAY : Int := 750

/-- `ObjectListView.MAX_ROWS_FOR_UNSORTED_SEARCH`: above this many rows an
unsorted type-ahead search is not even attempted. -/
def MAX_ROWS_FOR_UNSORTED_SEARCH : Nat := 100000

/-!
## `VirtualObjectListView`: single-slot row cache

The state below holds the fields of `VirtualObjectListView` (and its
subclass `FastObjectListView`) that the row-lookup cache touches:
`lastGetObjectIndex`, `lastGetObject`, `objectGetter`, the widget's item
count, and (for the fast variant) the in-memory `modelObjects`.
`objectGetter` returns `Option α`: `none` models the getter returning
Python `None`.
-/
structure VirtualState (α : Type) where
  lastGetObjectIndex : Int
  lastGetObject : Option α
  objectGetter : Option (Int → Option α)
  itemCount : Nat
  modelObjects : List α

/-- `VirtualObjectListView.GetObjectAt(self, index)`.  Returns the looked-up
object, the successor state, and the number of times `self.objectGetter`
was invoked (0 or 1), mirroring

    if self.objectGetter is None:
        return None
    if index != self.lastGetObjectIndex:
        self.lastGetObjectIndex = index
        self.lastGetObject = self.objectGetter(index)
    return self.lastGetObject
-/
def GetObjectAt {α : Type} (s : VirtualState α) (index : Int) :
    Option α × VirtualState α × Nat :=
  match s.objectGetter with
  | none => (none, s, 0)
  | some getter =>
      if index ≠ s.lastGetObjectIndex then
        let obj := getter index
        (obj, { s with lastGetObjectIndex := index, lastGetObject := obj }, 1)
      else
        (s.lastGetObject, s, 0)

/-- `n` consecutive calls of `GetObjectAt` at the same index; returns the
final state and the total number of supplier invocations. -/
def repeatGetObjectAt {α : Type} (s : VirtualState α) (index : Int) :
    Nat → VirtualState α × Nat
  | 0 => (s, 0)
  | n + 1 =>
      let r := GetObjectAt s index
      let rest := repeatGetObjectAt r.2.1 index n
      (rest.1, r.2.2 + rest.2)

/-- `VirtualObjectListView.SetItemCount(self, count)`:
`wx.ListCtrl.SetItemCount` updates the widget's row count, then the cache
slot is cleared (`self.lastGetObjectIndex = -1`); the empty-list message and
`Refresh` are widget-side only. -/
def SetItemCount {α : Type} (s : VirtualState α) (count : Nat) : VirtualState α :=
  { s with itemCount := count, lastGetObjectIndex := -1 }

/-- `VirtualObjectListView.ClearAll(self)`: the base `ObjectListView.ClearAll`
clears the widget and does `SetObjects(list())` (so `self.modelObjects`
becomes empty), then `self.lastGetObjectIndex = -1`. -/
def ClearAll {α : Type} (s : VirtualState α) : VirtualState α :=
  { s with modelObjects := [], lastGetObjectIndex := -1 }

/-- `VirtualObjectListView.DeleteAllItems(self)`: the base method clears the
widget's items and does `SetObjects(list())`, then `self.lastGetObjectIndex = -1`. -/
def DeleteAllItems {α : Type} (s : VirtualState α) : VirtualState α :=
  { s with modelObjects := [], lastGetObjectIndex := -1 }

/-- `VirtualObjectListView.RefreshObjects(self, aList=None)`: clears the cache
slot (`self.lastGetObjectIndex = -1`); `RefreshItems`/`Refresh` are
widget-side redraws. -/
def RefreshObjects {α : Type} (s : VirtualState α) : VirtualState α :=
  { s with lastGetObjectIndex := -1 }

/-- `VirtualObjectListView.RefreshIndex(self, index, modelObject)`: clears the
cache slot; `RefreshItem(index)` is a widget-side redraw. -/
def RefreshIndex {α : Type} (s : VirtualState α) (index : Nat) : VirtualState α :=
  { s with lastGetObjectIndex := -1 }

/-- `FastObjectListView._SortItemsNow(self)`: remembers the widget selection,
sorts `self.modelObjects` in place via `_SortObjects` (abstracted here as the
list transformer `sortObjs`, covering the sort key, direction and the
`SortEvent` veto), restores the selection (widget-side), and calls
`RefreshObjects`, which clears the cache slot. -/
def SortItemsNow {α : Type} (sortObjs : List α → List α) (s : VirtualState α) :
    VirtualState α :=
  RefreshObjects { s with modelObjects := sortObjs s.modelObjects }

/-- `FastObjectListView.RepopulateList(self)`: clears the cache slot, sorts the
model objects when a sort column is set (`hasSortColumn` models
`self.sortColumnIndex is not None`), then `SetItemCount(len(self.modelObjects))`
(which clears the slot again); `Refresh`/`AutoSizeColumns` are widget-side. -/
def RepopulateListFast {α : Type} (sortObjs : List α → List α)
    (hasSortColumn : Bool) (s : VirtualState α) : VirtualState α :=
  let s1 := { s with lastGetObjectIndex := (-1 : Int) }
  let s2 := if hasSortColumn then { s1 with modelObjects := sortObjs s1.modelObjects } else s1
  SetItemCount s2 s2.modelObjects.length

/-!
## Type-ahead search (`_HandleTypingEvent`, `_FindByTyping`, `_FindByBisect`)

Python strings are lists of code points; `pyStrLt` is Python's `<` on
strings (lexicographic by code point) and `lowerStr` is `str.lower()`
(ASCII case folding, which covers every string the claims mention).
-/

/-- A Python string: its list of code points. -/
abbrev PyStr := List Char

/-- Python string `<`: lexicographic comparison by code point. -/
def pyStrLt : PyStr → PyStr → Bool
  | [], [] => false
  | [], _ :: _ => true
  | _ :: _, [] => false
  | a :: as, b :: bs => if a < b then true else if b < a then false else pyStrLt as bs

/-- Python `str.lower()` (ASCII folding). -/
def lowerStr (s : PyStr) : PyStr := s.map Char.toLower

/-- Python `str.startswith`: list-prefix test. -/
def pyStartsWith (s pfx : PyStr) : Bool := pfx.isPrefixOf s

/-- The state of an `ObjectListView` (and its chosen search column) that
`_FindByTyping` reads: the widget's item count, the search column's display
string per row (`searchColumn.GetStringValue(self.GetObjectAt(i))`), the
current sort direction, whether `_CanUseBisect(searchColumn)` answered
`True`, and `GetFocusedRow()` (`-1` when no row has the focus). -/
structure SearchListModel where
  itemCount : Nat
  getString : Nat → PyStr
  sortAscending : Bool
  canUseBisect : Bool
  focusedRow : Int

/-- The outcome of `_FindByTyping`: either `_SelectAndFocus(rowIndex)` was
called, or `wx.Bell()` rang with the selection untouched. -/
inductive FindOutcome where
  | select (rowIndex : Nat)
  | bell
deriving DecidableEq

/-- The comparison `cmpFunc(searchFor, strValue.lower())` of `_FindByBisect`:
`operator.lt` for an ascending sort, `operator.ge` for a descending one
(`a >= b` is `not (a < b)` on Python strings). -/
def bisectCond (asc : Bool) (searchFor sv : PyStr) : Bool :=
  if asc then pyStrLt searchFor sv else !pyStrLt searchFor sv

/-- The `while lo < hi` loop of `_FindByBisect` (adapted in the source from
the `bisect` std module), also counting `self.__rows`, the rows examined:

    while lo < hi:
        self.__rows += 1
        mid = (lo + hi) // 2
        strValue = searchColumn.GetStringValue(self.GetObjectAt(mid))
        if cmpFunc(searchFor, strValue.lower()):
            hi = mid
        else:
            lo = mid+1
-/
def bisectLoop (g : Nat → PyStr) (asc : Bool) (searchFor : PyStr) :
    Nat → Nat → Nat → Nat → Nat × Nat
  | 0, lo, _hi, rows => (lo, rows)
  | fuel + 1, lo, hi, rows =>
    if lo < hi then
      let mid := (lo + hi) / 2
      if bisectCond asc searchFor (lowerStr (g mid)) then
        bisectLoop g asc searchFor fuel lo mid (rows + 1)
      else
        bisectLoop g asc searchFor fuel (mid + 1) hi (rows + 1)
    else (lo, rows)

/-- The loop, entered with enough fuel for every iteration (`hi - lo` halves
each turn, so `hi - lo` iterations more than suffice). -/
def bisectSearch (g : Nat → PyStr) (asc : Bool) (searchFor : PyStr)
    (lo hi rows : Nat) : Nat × Nat :=
  bisectLoop g asc searchFor (hi - lo) lo hi rows

/-- `ObjectListView._FindByBisect(self, searchColumn, prefix, start, end)`:
returns `some i` when row `i` was selected/focused and `none` when the
method returned `False`, paired with the number of rows examined. -/
def FindByBisect (m : SearchListModel) (pfx : PyStr) (start finish : Nat) :
    Option Nat × Nat :=
  let searchFor := if m.sortAscending then pfx else pfx ++ ['z']
  let r := bisectSearch m.getString m.sortAscending searchFor start finish 0
  let lo := r.1
  if lo < start ∨ finish ≤ lo then (none, r.2)
  else if pyStartsWith (lowerStr (m.getString lo)) pfx then (some lo, r.2)
  else (none, r.2)

/-- The linear, wrapping scan of `_FindByTyping`, over an explicit list of
row indices, counting the rows examined:

    for i in itertools.chain(range(start, self.GetItemCount()), range(0, start)):
        self.__rows += 1
        strValue = searchColumn.GetStringValue(self.GetObjectAt(i))
        if strValue.lower().startswith(prefix):
            self._SelectAndFocus(i)
            return
-/
def linearSearch (g : Nat → PyStr) (pfx : PyStr) :
    List Nat → Nat → Option Nat × Nat
  | [], rows => (none, rows)
  | i :: rest, rows =>
      if pyStartsWith (lowerStr (g i)) pfx then (some i, rows + 1)
      else linearSearch g pfx rest (rows + 1)

/-- `ObjectListView._FindByTyping(self, searchColumn, prefix)`: the result and
the total `self.__rows` count.  `start = max(self.GetFocusedRow(), 0)` is
`focusedRow.toNat`; a one-character prefix starts a new search one row past
the focus, wrapping (`(start + 1) % self.GetItemCount()`).  On the unsorted
path, a list larger than `MAX_ROWS_FOR_UNSORTED_SEARCH` is not searched at
all: the code does `self._SelectAndFocus(0)` and returns. -/
def FindByTyping (m : SearchListModel) (pfx : PyStr) : FindOutcome × Nat :=
  let start0 : Nat := m.focusedRow.toNat
  let start : Nat := if pfx.length = 1 then (start0 + 1) % m.itemCount else start0
  if m.canUseBisect then
    match FindByBisect m pfx start m.itemCount with
    | (some i, r1) => (.select i, r1)
    | (none, r1) =>
        match FindByBisect m pfx 0 start with
        | (some i, r2) => (.select i, r1 + r2)
        | (none, r2) => (.bell, r1 + r2)
  else
    if MAX_ROWS_FOR_UNSORTED_SEARCH < m.itemCount then (.select 0, 0)
    else
      match linearSearch m.getString pfx
          (List.range' start (m.itemCount - start) ++ List.range start) 0 with
      | (some i, r) => (.select i, r)
      | (none, r) => (.bell, r)

/-!
## `_HandleTypingEvent`: accumulating the typed search string

Only the keystroke-timing state is modelled: the guards of
`_HandleTypingEvent` (empty list, modifier keys, non-printable characters,
backspace/delete) either bail out before this state is touched or clear the
accumulated text.
-/

/-- The typing state: `self.searchPrefix` and `self.whenLastTypingEvent`
(a wx event timestamp in milliseconds). -/
structure TypingState where
  searchText : PyStr
  whenLastTypingEvent : Int

/-- The keystroke-accumulation step of `_HandleTypingEvent`:

    if (evt.GetTimestamp() - self.whenLastTypingEvent) > self.SEARCH_KEYSTROKE_DELAY:
        self.searchPrefix = uniChar
    else:
        self.searchPrefix += uniChar
    self.whenLastTypingEvent = evt.GetTimestamp()
-/
def handleTypingKeystroke (st : TypingState) (uniChar : Char) (timestamp : Int) :
    TypingState :=
  let sp := if timestamp - st.whenLastTypingEvent > SEARCH_KEYSTROKE_DELAY
            then [uniChar] else st.searchText ++ [uniChar]
  { searchText := sp, whenLastTypingEvent := timestamp }

/-!
## `ColumnDefn`: value access (`_Munge`) and display strings (`GetStringValue`)

The modelled universe of Python values: `None`, booleans, ints, floats
(as rationals — only zero-ness matters here), strings, and zero-argument
callables (the only way `_Munge` invokes a callable attribute).  The
universe has no datetime objects, so `isinstance(value, (datetime, date,
time))` is identically false on it.
-/

/-- A Python value, as far as the column accessors inspect one. -/
inductive PyVal where
  | vnone
  | vbool (b : Bool)
  | vint (n : Int)
  | vfloat (q : Rat)
  | vstr (s : String)
  | vfunc (ret : PyVal)
deriving DecidableEq

/-- Python truthiness on the modelled values: `None`, `False`, `0`, `0.0`
and `""` are falsy, everything else truthy. -/
def PyVal.truthy : PyVal → Bool
  | .vnone => false
  | .vbool b => b
  | .vint n => decide (n ≠ 0)
  | .vfloat q => decide (q ≠ 0)
  | .vstr s => decide (s ≠ "")
  | .vfunc _ => true

/-- `isinstance(value, (datetime.datetime, datetime.date, datetime.time))`:
false on every value of the modelled universe. -/
def PyVal.isDatetimeLike : PyVal → Bool
  | _ => false

/-- `callable(attr)` together with the call `attr()`: a `vfunc` attribute is
called (yielding its result), any other value is returned as is. -/
def PyVal.callIfCallable : PyVal → PyVal
  | .vfunc r => r
  | v => v

/-- A model object, as `_Munge` probes it: `attrs name` is
`getattr(modelObject, name, None)` (a missing attribute reads as `vnone`),
and `getitemStr` / `getitemInt` are `modelObject[key]` for string and
integer keys, with `none` standing for any exception the indexing raises. -/
structure PyObj where
  attrs : String → PyVal
  getitemStr : String → Option PyVal
  getitemInt : Int → Option PyVal

/-- A munger, as `ColumnDefn` accepts one: `None`, a callable, an attribute
name / string key, or an integer index. -/
inductive Munger where
  | mnone
  | mfunc (f : PyObj → PyVal)
  | mname (s : String)
  | mint (i : Int)

/-- `ColumnDefn._Munge(self, modelObject, munger)`:

    if munger is None: return None
    if callable(munger): return munger(modelObject)
    try:
        attr = getattr(modelObject, munger, None)
        if attr is not None:
            if callable(attr): return attr()
            else: return attr
    except TypeError:
        pass            # munger is a number
    try:
        return modelObject[munger]
    except:
        return None

For an integer munger, `getattr` raises `TypeError` (caught); for a string
munger it returns the attribute or the `None` default. -/
def Munge (modelObject : PyObj) (munger : Munger) : PyVal :=
  match munger with
  | .mnone => .vnone
  | .mfunc f => f modelObject
  | .mname s =>
      let attr := modelObject.attrs s
      if attr ≠ PyVal.vnone then attr.callIfCallable
      else
        match modelObject.getitemStr s with
        | some v => v
        | none => .vnone
  | .mint i =>
      match modelObject.getitemInt i with
      | some v => v
      | none => .vnone

/-- `self.stringConverter`: `None`, a callable, or a format / strftime
string. -/
inductive StringConv where
  | scnone
  | scfunc (f : PyVal → String)
  | scfmt (fmt : String)

/-- Python truthiness of a `stringConverter` (`None` and the empty format
string are falsy). -/
def StringConv.truthy : StringConv → Bool
  | .scnone => false
  | .scfunc _ => true
  | .scfmt fmt => decide (fmt ≠ "")

/-- `self.stringConverter or "%s"`. -/
def StringConv.orDefaultFmt : StringConv → String
  | .scfmt fmt => if fmt = "" then "%s" else fmt
  | _ => "%s"

/-- Python `str(v)` on the modelled values (the exact rendering of truthy
values is irrelevant to the claims; falsy values never reach it on the
`stringConverter = None` path). -/
def pyStrOf : PyVal → String
  | .vnone => "None"
  | .vbool true => "True"
  | .vbool false => "False"
  | .vint n => toString n
  | .vfloat q => toString q
  | .vstr s => s
  | .vfunc _ => "<callable>"

/-- `fmt % value` for a single `%s`-style specifier (the only form the
claims exercise): each `%s` is replaced by `str(value)`. -/
def pyFormat (fmt : String) (v : PyVal) : String :=
  fmt.replace "%s" (pyStrOf v)

/-- The two `ColumnDefn` attributes that `GetValue`/`GetStringValue` read. -/
structure ColumnDefn where
  valueGetter : Munger
  stringConverter : StringConv

/-- `ColumnDefn.GetValue(self, modelObject)`. -/
def ColumnDefn.GetValue (col : ColumnDefn) (modelObject : PyObj) : PyVal :=
  Munge modelObject col.valueGetter

/-- `ColumnDefn.GetStringValue(self, modelObject)`:

    value = self.GetValue(modelObject)
    if callable(self.stringConverter):
        return self.stringConverter(value)
    if self.stringConverter and isinstance(value, (datetime, date, time)):
        return value.strftime(self.stringConverter)
    # By default, None is changed to an empty string.
    if not self.stringConverter and not value:
        return ""
    fmt = self.stringConverter or "%s"
    return fmt % value

(The `strftime` branch is unreachable over the modelled value universe,
which holds no datetime objects; the `UnicodeError` fallback re-runs the
same interpolation and is the identity here.) -/
def ColumnDefn.GetStringValue (col : ColumnDefn) (modelObject : PyObj) : String :=
  let value := col.GetValue modelObject
  match col.stringConverter with
  | .scfunc f => f value
  | sc =>
      if sc.truthy && value.isDatetimeLike then pyStrOf value
      else if !sc.truthy && !value.truthy then ""
      else pyFormat sc.orDefaultFmt value

/-!
## Concrete instances used by witnesses and counterexamples
-/

/-- A getter for the witness states: row `i` resolves to `i.toNat`. -/
def getter₀ : Int → Option Nat := fun i => some i.toNat

/-- A virtual list with a configured supplier and an empty cache slot. -/
def virtual₀ : VirtualState Nat :=
  { lastGetObjectIndex := -1, lastGetObject := none, objectGetter := some getter₀,
    itemCount := 3, modelObjects := [] }

/-- A virtual list without a configured supplier. -/
def virtualNoGetter : VirtualState Nat :=
  { lastGetObjectIndex := 5, lastGetObject := some 7, objectGetter := none,
    itemCount := 3, modelObjects := [] }

/-- The spec's sorted fruit column: `["Apple","apricot","Banana","cherry"]`,
case-insensitively ascending, bisectable, focus on row 0. -/
def fruitModel : SearchListModel :=
  { itemCount := 4,
    getString := fun i =>
      (["Apple".toList, "apricot".toList, "Banana".toList, "cherry".toList]).getD i [],
    sortAscending := true, canUseBisect := true, focusedRow := 0 }

/-- An unsorted list one row over `MAX_ROWS_FOR_UNSORTED_SEARCH`, every row
reading `"apple"`. -/
def bigUnsorted : SearchListModel :=
  { itemCount := 100001, getString := fun _ => "apple".toList,
    sortAscending := true, canUseBisect := false, focusedRow := 0 }

/-- A typing state holding an accumulated one-character search. -/
def typingState₀ : TypingState := { searchText := ['a'], whenLastTypingEvent := 0 }

/-- A descending-sorted two-row column `["b~", "ba"]` (`'~'` sorts above
`'z'`), bisectable: both rows start with `"b"`. -/
def descPair : SearchListModel :=
  { itemCount := 2, getString := fun i => (["b~".toList, "ba".toList]).getD i [],
    sortAscending := false, canUseBisect := true, focusedRow := 0 }

/-- A descending-sorted column `["c", "bb", "ba", "a"]` whose rows 1–2 form
the run matching `"b"`, all of them at most `"bz"`. -/
def descRun : SearchListModel :=
  { itemCount := 4,
    getString := fun i => (["c".toList, "bb".toList, "ba".toList, "a".toList]).getD i [],
    sortAscending := false, canUseBisect := true, focusedRow := 0 }

/-- A model object with a plain attribute, a callable attribute, a
string-indexable key and an integer-indexable key. -/
def obj₀ : PyObj :=
  { attrs := fun s =>
      if s = "name" then .vstr "alice"
      else if s = "age" then .vfunc (.vint 30)
      else .vnone,
    getitemStr := fun s => if s = "city" then some (.vstr "paris") else none,
    getitemInt := fun i => if i = 0 then some (.vint 1) else none }

/-- A model object whose `"zero"` attribute holds the integer 0. -/
def objZero : PyObj :=
  { attrs := fun s => if s = "zero" then .vint 0 else .vnone,
    getitemStr := fun _ => none,
    getitemInt := fun _ => none }

/-- A column reading the `"zero"` attribute with no string converter. -/
def colZero : ColumnDefn := { valueGetter := .mname "zero", stringConverter := .scnone }

/-!
## Claims about the single-slot cache (C1, C6, C7)
-/

/-- When the cache already holds the requested index, `n` further lookups at
it leave the state untouched and never invoke the supplier. -/
lemma repeatGetObjectAt_hit {α : Type} (s : VirtualState α) (index : Int)
    (h : index = s.lastGetObjectIndex) :
    ∀ n, repeatGetObjectAt s index n = (s, 0) := by
  intro n
  induction n with
  | zero => rfl
  | succ n ih =>
      cases hg : s.objectGetter with
      | none =>
          have hstep : GetObjectAt s index = (none, s, 0) := by simp [GetObjectAt, hg]
          simp [repeatGetObjectAt, hstep, ih]
      | some g =>
          have hstep : GetObjectAt s index = (s.lastGetObject, s, 0) := by
            simp [GetObjectAt, hg, h]
          simp [repeatGetObjectAt, hstep, ih]

/-- C1: with a configured supplier, a lookup at the cached index returns the
cached object without invoking the supplier and leaves the state unchanged;
a lookup at any other index invokes the supplier exactly once with that
index, caches the pair, and returns the fetched object.  Hence `n + 1`
consecutive lookups at one index invoke the supplier exactly once when the
index is not already cached (and never when it is), and after the cache is
invalidated (`lastGetObjectIndex = -1`, as `RefreshObjects` does) a lookup
at any non-negative index invokes the supplier again. -/
theorem GetObjectAt_cache_spec {α : Type} (s : VirtualState α)
    (g : Int → Option α) (hg : s.objectGetter = some g) (index : Int) :
    (index = s.lastGetObjectIndex →
        GetObjectAt s index = (s.lastGetObject, s, 0)) ∧
    (index ≠ s.lastGetObjectIndex →
        GetObjectAt s index =
          (g index,
           { s with lastGetObjectIndex := index, lastGetObject := g index }, 1)) ∧
    (∀ n : Nat,
        (repeatGetObjectAt s index (n + 1)).2 =
          if index = s.lastGetObjectIndex then 0 else 1) ∧
    (0 ≤ index → (GetObjectAt (RefreshObjects s) index).2.2 = 1) := by
  refine ⟨fun h => by simp [GetObjectAt, hg, h], fun h => by simp [GetObjectAt, hg, h],
    fun n => ?_, fun h => ?_⟩
  · by_cases h : index = s.lastGetObjectIndex
    · rw [if_pos h, show repeatGetObjectAt s index (n + 1) = (s, 0) from
        repeatGetObjectAt_hit s index h (n + 1)]
    · rw [if_neg h]
      have hstep : GetObjectAt s index =
          (g index,
           { s with lastGetObjectIndex := index, lastGetObject := g index }, 1) := by
        simp [GetObjectAt, hg, h]
      simp only [repeatGetObjectAt, hstep]
      rw [repeatGetObjectAt_hit _ index rfl n]
      rfl
  · have hne : index ≠ -1 := by omega
    simp [GetObjectAt, RefreshObjects, hg, hne]

/-- Witness for `GetObjectAt_cache_spec` at `virtual₀` and index 2. -/
theorem GetObjectAt_cache_spec_witness :
    virtual₀.objectGetter = some getter₀ ∧
    (2 : Int) ≠ virtual₀.lastGetObjectIndex ∧
    GetObjectAt virtual₀ 2 =
      (getter₀ 2,
       { virtual₀ with lastGetObjectIndex := 2, lastGetObject := getter₀ 2 }, 1) ∧
    (repeatGetObjectAt virtual₀ 2 5).2 = 1 := by
  refine ⟨rfl, by decide, (GetObjectAt_cache_spec virtual₀ getter₀ rfl 2).2.1 (by decide), ?_⟩
  rw [(GetObjectAt_cache_spec virtual₀ getter₀ rfl 2).2.2.1 4]
  decide

/-- C6: every modelled operation that changes the logical index-to-row
mapping of a virtual list — `SetItemCount`, `ClearAll`, `DeleteAllItems`,
`RefreshObjects`, `RefreshIndex`, `FastObjectListView._SortItemsNow` and
`FastObjectListView.RepopulateList` — leaves the cache slot invalidated
(`lastGetObjectIndex = -1`). -/
theorem cache_invalidated_on_remap {α : Type} (s : VirtualState α) (count : Nat)
    (sortObjs : List α → List α) (hasSortColumn : Bool) (index : Nat) :
    (SetItemCount s count).lastGetObjectIndex = -1 ∧
    (ClearAll s).lastGetObjectIndex = -1 ∧
    (DeleteAllItems s).lastGetObjectIndex = -1 ∧
    (RefreshObjects s).lastGetObjectIndex = -1 ∧
    (RefreshIndex s index).lastGetObjectIndex = -1 ∧
    (SortItemsNow sortObjs s).lastGetObjectIndex = -1 ∧
    (RepopulateListFast sortObjs hasSortColumn s).lastGetObjectIndex = -1 := by
  refine ⟨rfl, rfl, rfl, rfl, rfl, rfl, ?_⟩
  cases hasSortColumn <;> rfl

/-- C7: with no configured object getter, `GetObjectAt` returns `None` for
every index, performs no supplier call, and leaves the state (including any
previously cached pair) unchanged. -/
theorem GetObjectAt_no_getter {α : Type} (s : VirtualState α)
    (h : s.objectGetter = none) (index : Int) :
    GetObjectAt s index = (none, s, 0) := by
  simp [GetObjectAt, h]

/-- Witness for `GetObjectAt_no_getter` at `virtualNoGetter`, index 5 (the
index that is still cached) and index 0. -/
theorem GetObjectAt_no_getter_witness :
    virtualNoGetter.objectGetter = none ∧
    GetObjectAt virtualNoGetter 5 = (none, virtualNoGetter, 0) ∧
    GetObjectAt virtualNoGetter 0 = (none, virtualNoGetter, 0) :=
  ⟨rfl, GetObjectAt_no_getter virtualNoGetter rfl 5,
    GetObjectAt_no_getter virtualNoGetter rfl 0⟩

/-!
## Claims about the typing handler and the search paths (C8, C3, C2)
-/

/-- C8: a keystroke whose gap since the previous one exceeds
`SEARCH_KEYSTROKE_DELAY` discards the accumulated text and starts a fresh
one-character search; a keystroke within the delay appends.  Consequently,
after two keystrokes separated by more than the delay, the second search
runs on the second character alone. -/
theorem handleTypingKeystroke_spec (st : TypingState) (c : Char) (t : Int) :
    (t - st.whenLastTypingEvent > SEARCH_KEYSTROKE_DELAY →
        handleTypingKeystroke st c t =
          { searchText := [c], whenLastTypingEvent := t }) ∧
    (t - st.whenLastTypingEvent ≤ SEARCH_KEYSTROKE_DELAY →
        handleTypingKeystroke st c t =
          { searchText := st.searchText ++ [c], whenLastTypingEvent := t }) ∧
    (∀ (c₂ : Char) (t₂ : Int), t₂ - t > SEARCH_KEYSTROKE_DELAY →
        (handleTypingKeystroke (handleTypingKeystroke st c t) c₂ t₂).searchText
          = [c₂]) := by
  refine ⟨fun h => ?_, fun h => ?_, fun c₂ t₂ h => ?_⟩
  · simp [handleTypingKeystroke, h]
  · simp [handleTypingKeystroke, not_lt.mpr h]
  · simp [handleTypingKeystroke, h]

/-- Witness for `handleTypingKeystroke_spec`: keystrokes at 1000 ms and
2000 ms (gaps of 1000 ms > 750 ms). -/
theorem handleTypingKeystroke_spec_witness :
    ((1000 : Int) - typingState₀.whenLastTypingEvent > SEARCH_KEYSTROKE_DELAY) ∧
    handleTypingKeystroke typingState₀ 'b' 1000 =
      { searchText := ['b'], whenLastTypingEvent := 1000 } ∧
    (handleTypingKeystroke (handleTypingKeystroke typingState₀ 'b' 1000) 'c' 2000).searchText
      = ['c'] :=
  ⟨by decide, (handleTypingKeystroke_spec typingState₀ 'b' 1000).1 (by decide),
    (handleTypingKeystroke_spec typingState₀ 'b' 1000).2.2 'c' 2000 (by decide)⟩

/-- C3: on the unsorted (non-bisect) path, a list larger than
`MAX_ROWS_FOR_UNSORTED_SEARCH` is never scanned: for every such list and
every typed text, `_FindByTyping` examines zero rows — it gives up at once
(selecting and focusing row 0) whatever the rows hold. -/
theorem FindByTyping_huge_unsorted_abandons (m : SearchListModel) (pfx : PyStr)
    (hb : m.canUseBisect = false)
    (hcap : MAX_ROWS_FOR_UNSORTED_SEARCH < m.itemCount) :
    FindByTyping m pfx = (.select 0, 0) := by
  simp [FindByTyping, hb, hcap]

/-- Witness for `FindByTyping_huge_unsorted_abandons` at `bigUnsorted`
(100001 rows) and the text `"z"`. -/
theorem FindByTyping_huge_unsorted_abandons_witness :
    bigUnsorted.canUseBisect = false ∧
    MAX_ROWS_FOR_UNSORTED_SEARCH < bigUnsorted.itemCount ∧
    FindByTyping bigUnsorted ['z'] = (.select 0, 0) :=
  ⟨rfl, by decide, FindByTyping_huge_unsorted_abandons bigUnsorted ['z'] rfl (by decide)⟩

/-- C2: on the fruit column `["Apple","apricot","Banana","cherry"]` — sorted
case-insensitively ascending (adjacent lowered strings strictly increase),
bisectable — typing `"b"` with the focus on row 0 selects and focuses
row 2 (`"Banana"`), examining 2 rows on the way. -/
theorem FindByTyping_fruit_selects_banana :
    (∀ i, i < 3 →
        pyStrLt (lowerStr (fruitModel.getString i))
          (lowerStr (fruitModel.getString (i + 1))) = true) ∧
    fruitModel.canUseBisect = true ∧ fruitModel.focusedRow = 0 ∧
    FindByTyping fruitModel ['b'] = (.select 2, 2) := by
  refine ⟨?_, rfl, rfl, by decide⟩
  decide

/-!
## Claims about no-match searches (C4)
-/

/-- `_FindByBisect` only answers a row after checking it: a selected row lies
in `[start, finish)` and its lower-cased string starts with the typed text. -/
lemma FindByBisect_some {m : SearchListModel} {pfx : PyStr} {start finish j : Nat}
    (h : (FindByBisect m pfx start finish).1 = some j) :
    start ≤ j ∧ j < finish ∧ pyStartsWith (lowerStr (m.getString j)) pfx = true := by
  simp only [FindByBisect] at h
  split at h
  all_goals (
    split at h
    · exact absurd h (by simp)
    · rename_i hrange
      split at h
      · rename_i hsw
        simp only [Option.some.injEq] at h
        subst h
        push_neg at hrange
        exact ⟨hrange.1, hrange.2, hsw⟩
      · exact absurd h (by simp))

/-- A linear scan over indices none of which matches finds nothing. -/
lemma linearSearch_none (g : Nat → PyStr) (pfx : PyStr) (l : List Nat)
    (h : ∀ i ∈ l, pyStartsWith (lowerStr (g i)) pfx = false) :
    ∀ rows, (linearSearch g pfx l rows).1 = none := by
  induction l with
  | nil => intro rows; rfl
  | cons i rest ih =>
      intro rows
      have hi := h i (by simp)
      simp only [linearSearch, hi]
      simp only [Bool.false_eq_true, if_false]
      exact ih (fun j hj => h j (by simp [hj])) (rows + 1)

/-- C4 (amended): if no row of the list matches the typed text then
`_FindByTyping` rings the bell and touches neither selection nor focus,
provided the search either uses bisection or the item count is within
`MAX_ROWS_FOR_UNSORTED_SEARCH` (above that cap the unsorted path instead
selects and focuses row 0 — see the counterexample).  Moreover over any
list, `_FindByBisect` selects a row only after verifying that its
lower-cased string starts with the text, and returns `False` otherwise. -/
theorem FindByTyping_nomatch_bells (m : SearchListModel) (pfx : PyStr)
    (hno : ∀ i, i < m.itemCount → pyStartsWith (lowerStr (m.getString i)) pfx = false)
    (hsize : m.canUseBisect = true ∨ m.itemCount ≤ MAX_ROWS_FOR_UNSORTED_SEARCH)
    (hcount : 0 < m.itemCount) (hfocus : m.focusedRow < (m.itemCount : Int)) :
    (FindByTyping m pfx).1 = .bell ∧
    (∀ (m' : SearchListModel) (pfx' : PyStr) (start finish j : Nat),
        (FindByBisect m' pfx' start finish).1 = some j →
        pyStartsWith (lowerStr (m'.getString j)) pfx' = true) := by
  refine ⟨?_, fun m' pfx' start finish j h => (FindByBisect_some h).2.2⟩
  have hfoc : m.focusedRow.toNat < m.itemCount := by omega
  simp only [FindByTyping]
  set st : Nat := if pfx.length = 1 then (m.focusedRow.toNat + 1) % m.itemCount
    else m.focusedRow.toNat with hst
  have hstart : st ≤ m.itemCount := by
    rw [hst]
    split
    · exact le_of_lt (Nat.mod_lt _ hcount)
    · omega
  by_cases hb : m.canUseBisect
  · have hb1 : ∀ finish, finish ≤ m.itemCount → ∀ start,
        (FindByBisect m pfx start finish).1 = none := by
      intro finish hf start
      cases hres : (FindByBisect m pfx start finish).1 with
      | none => rfl
      | some j =>
          obtain ⟨_, hj, hsw⟩ := FindByBisect_some hres
          rw [hno j (lt_of_lt_of_le hj hf)] at hsw
          exact absurd hsw (by simp)
    rcases hA : FindByBisect m pfx st m.itemCount with ⟨oA, rA⟩
    rcases hB : FindByBisect m pfx 0 st with ⟨oA2, rB⟩
    have h1 : oA = none := by
      have := hb1 m.itemCount le_rfl st
      rw [hA] at this
      exact this
    have h2 : oA2 = none := by
      have := hb1 st hstart 0
      rw [hB] at this
      exact this
    subst h1 h2
    simp [hb, hA, hB]
  · have hsmall : m.itemCount ≤ MAX_ROWS_FOR_UNSORTED_SEARCH := by
      rcases hsize with hsize | hsize
      · exact absurd hsize hb
      · exact hsize
    have hcap : ¬ MAX_ROWS_FOR_UNSORTED_SEARCH < m.itemCount := not_lt.mpr hsmall
    have hlin : ∀ rows, (linearSearch m.getString pfx
        (List.range' st (m.itemCount - st) ++ List.range st) rows).1 = none := by
      apply linearSearch_none
      intro j hj
      rcases List.mem_append.mp hj with hj | hj
      · have := List.mem_range'_1.mp hj
        exact hno j (by omega)
      · have := List.mem_range.mp hj
        exact hno j (by omega)
    rcases hL : linearSearch m.getString pfx
        (List.range' st (m.itemCount - st) ++ List.range st) 0 with ⟨oL, rL⟩
    have h3 : oL = none := by
      have := hlin 0
      rw [hL] at this
      exact this
    subst h3
    simp [hb, hcap, hL]

/-- Witness for `FindByTyping_nomatch_bells`: on the fruit column nothing
starts with `"z"`, and typing `"z"` rings the bell. -/
theorem FindByTyping_nomatch_bells_witness :
    (∀ i, i < fruitModel.itemCount →
        pyStartsWith (lowerStr (fruitModel.getString i)) ['z'] = false) ∧
    (FindByTyping fruitModel ['z']).1 = .bell :=
  ⟨by decide,
    (FindByTyping_nomatch_bells fruitModel ['z'] (by decide) (Or.inl rfl)
      (by decide) (by decide)).1⟩

/-- C4 counterexample: on a 100001-row non-bisectable list in which no row
matches `"z"`, `_FindByTyping` does not ring the bell — it moves the
selection and focus to row 0, so the claim's "leaves the current selection
and focus unchanged" fails as stated for lists above the unsorted-search
cap. -/
theorem FindByTyping_big_nomatch_selects_zero :
    bigUnsorted.canUseBisect = false ∧
    (∀ i, i < bigUnsorted.itemCount →
        pyStartsWith (lowerStr (bigUnsorted.getString i)) ['z'] = false) ∧
    FindByTyping bigUnsorted ['z'] = (.select 0, 0) ∧
    (FindByTyping bigUnsorted ['z']).1 ≠ .bell := by
  refine ⟨rfl, ?_, by decide, by decide⟩
  intro i _
  show pyStartsWith (lowerStr "apple".toList) ['z'] = false
  decide

/-!
## Claims about descending-order bisection (C5)
-/

/-- On a descending sort, the loop's comparison is `operator.ge`:
`searchFor >= strValue`, i.e. `not (searchFor < strValue)`. -/
lemma bisectCond_false (sf sv : PyStr) : bisectCond false sf sv = !pyStrLt sf sv := rfl

/-- Non-strictness of `pyStrLt` is transitive: `a ≤ b ≤ c` (as
`¬ b < a`, `¬ c < b`) gives `a ≤ c`. -/
lemma pyStrLt_false_trans :
    ∀ {a b c : PyStr}, pyStrLt a b = false → pyStrLt b c = false →
      pyStrLt a c = false := by
  intro a
  induction a with
  | nil =>
      intro b c h1 h2
      cases c with
      | nil => rfl
      | cons c' cs =>
          cases b with
          | nil => simp [pyStrLt] at h2
          | cons b' bs => simp [pyStrLt] at h1
  | cons a' as ih =>
      intro b c h1 h2
      cases c with
      | nil => rfl
      | cons c' cs =>
          cases b with
          | nil => simp [pyStrLt] at h2
          | cons b' bs =>
              simp only [pyStrLt] at h1 h2 ⊢
              by_cases hab : a' < b'
              · simp [hab] at h1
              · by_cases hbc : b' < c'
                · simp [hbc] at h2
                · have hac : ¬ a' < c' :=
                    fun hlt =>
                      absurd hlt (not_lt.mpr (le_trans (not_lt.mp hbc) (not_lt.mp hab)))
                  rw [if_neg hac]
                  by_cases hca : c' < a'
                  · simp [hca]
                  · rw [if_neg hca]
                    have hba : ¬ b' < a' := by
                      intro hlt
                      exact hca (lt_of_le_of_lt (not_lt.mp hbc) hlt)
                    have hcb : ¬ c' < b' := by
                      intro hlt
                      exact hca (lt_of_lt_of_le hlt (not_lt.mp hab))
                    rw [if_neg hab, if_neg hba] at h1
                    rw [if_neg hbc, if_neg hcb] at h2
                    exact ih h1 h2

/-- A string lying (in code-point order) between two strings that both start
with `p` itself starts with `p`. -/
lemma pyStartsWith_of_between :
    ∀ (p : PyStr), ∀ {r w s : PyStr},
      pyStrLt s (p ++ r) = false → pyStrLt (p ++ w) s = false →
      p.isPrefixOf s = true := by
  intro p
  induction p with
  | nil => intro r w s h1 h2; simp [List.isPrefixOf]
  | cons c p' ih =>
      intro r w s h1 h2
      cases s with
      | nil => simp [pyStrLt] at h1
      | cons d s' =>
          simp only [List.cons_append, pyStrLt] at h1 h2
          by_cases hdc : d < c
          · simp [hdc] at h1
          · by_cases hcd : c < d
            · simp [hcd] at h2
            · have hcd' : c = d := le_antisymm (not_lt.mp hdc) (not_lt.mp hcd)
              rw [if_neg hdc, if_neg hcd] at h1
              rw [if_neg hcd, if_neg hdc] at h2
              subst hcd'
              simp only [List.isPrefixOf, beq_self_eq_true, Bool.true_and]
              exact ih h1 h2

/-- The bisection loop, entered with enough fuel and a monotone comparison
over `[lo, hi)`, halts on the boundary: its answer `res` lies in `[lo, hi]`,
the comparison is false on `[lo, res)` and true on `[res, hi)`. -/
lemma bisectLoop_spec (g : Nat → PyStr) (asc : Bool) (sf : PyStr) :
    ∀ (fuel lo hi rows : Nat), hi - lo ≤ fuel → lo ≤ hi →
      (∀ i j, lo ≤ i → i ≤ j → j < hi →
          bisectCond asc sf (lowerStr (g i)) = true →
          bisectCond asc sf (lowerStr (g j)) = true) →
      lo ≤ (bisectLoop g asc sf fuel lo hi rows).1 ∧
      (bisectLoop g asc sf fuel lo hi rows).1 ≤ hi ∧
      (∀ i, lo ≤ i → i < (bisectLoop g asc sf fuel lo hi rows).1 →
          bisectCond asc sf (lowerStr (g i)) = false) ∧
      (∀ i, (bisectLoop g asc sf fuel lo hi rows).1 ≤ i → i < hi →
          bisectCond asc sf (lowerStr (g i)) = true) := by
  intro fuel
  induction fuel with
  | zero =>
      intro lo hi rows hfuel hlohi hmono
      have heq : hi = lo := by omega
      subst heq
      simp only [bisectLoop]
      exact ⟨le_rfl, le_rfl, fun i h1 h2 => by omega, fun i h1 h2 => by omega⟩
  | succ fuel ih =>
      intro lo hi rows hfuel hlohi hmono
      by_cases hlt : lo < hi
      · have hmid1 : (lo + hi) / 2 < hi := by omega
        have hmid2 : lo ≤ (lo + hi) / 2 := by omega
        have hunfold : bisectLoop g asc sf (fuel + 1) lo hi rows =
            if bisectCond asc sf (lowerStr (g ((lo + hi) / 2))) then
              bisectLoop g asc sf fuel lo ((lo + hi) / 2) (rows + 1)
            else
              bisectLoop g asc sf fuel ((lo + hi) / 2 + 1) hi (rows + 1) := by
          simp only [bisectLoop, if_pos hlt]
        by_cases hcond : bisectCond asc sf (lowerStr (g ((lo + hi) / 2))) = true
        · rw [hunfold, if_pos hcond]
          obtain ⟨ha, hb, hc, hd⟩ := ih lo ((lo + hi) / 2) (rows + 1)
            (by omega) hmid2
            (fun i j h1 h2 h3 => hmono i j h1 h2 (lt_trans h3 hmid1))
          refine ⟨ha, le_trans hb (le_of_lt hmid1), hc, fun i h1 h2 => ?_⟩
          by_cases him : i < (lo + hi) / 2
          · exact hd i h1 him
          · exact hmono ((lo + hi) / 2) i hmid2 (by omega) h2 hcond
        · rw [hunfold, if_neg hcond]
          obtain ⟨ha, hb, hc, hd⟩ := ih ((lo + hi) / 2 + 1) hi (rows + 1)
            (by omega) (by omega)
            (fun i j h1 h2 h3 => hmono i j (by omega) h2 h3)
          refine ⟨by omega, hb, fun i h1 h2 => ?_, hd⟩
          by_cases him : (lo + hi) / 2 + 1 ≤ i
          · exact hc i him h2
          · cases hci : bisectCond asc sf (lowerStr (g i)) with
            | false => rfl
            | true =>
                exact absurd (hmono i ((lo + hi) / 2) h1 (by omega) hmid1 hci) hcond
      · have hunfold : bisectLoop g asc sf (fuel + 1) lo hi rows = (lo, rows) := by
          simp only [bisectLoop, if_neg hlt]
        rw [hunfold]
        exact ⟨le_rfl, hlohi, fun i h1 h2 => by omega, fun i h1 h2 => by omega⟩

/-- C5 counterexample: a descending-sorted bisectable column `["b~","ba"]`
in which both consecutive rows share the typed text `"b"`; `_FindByBisect`
over the whole range locates row 1, not the first row (0) of the matching
run — the `prefix + "z"` sentinel under-approximates strings containing
code points above `'z'`. -/
theorem FindByBisect_desc_not_first :
    descPair.sortAscending = false ∧
    pyStrLt (lowerStr (descPair.getString 1)) (lowerStr (descPair.getString 0)) = true ∧
    pyStartsWith (lowerStr (descPair.getString 0)) ['b'] = true ∧
    pyStartsWith (lowerStr (descPair.getString 1)) ['b'] = true ∧
    (FindByBisect descPair ['b'] 0 2).1 = some 1 := by decide

/-- C5 (amended): when the list is sorted descending by the search column,
several consecutive rows `[a, b)` share the typed text, no earlier row does,
and every matching row's lower-cased string is at most `text ++ "z"` in
code-point order (the sentinel bound — automatic when no matching string has
a code point above `'z'` right after the text), `_FindByBisect` over the
whole range locates exactly the first row `a` of the run. -/
theorem FindByBisect_desc_first_of_run (m : SearchListModel) (pfx : PyStr)
    (a b : Nat)
    (hdesc : m.sortAscending = false)
    (hsorted : ∀ j, j < m.itemCount → ∀ i, i ≤ j →
        pyStrLt (lowerStr (m.getString i)) (lowerStr (m.getString j)) = false)
    (hb2 : a + 2 ≤ b) (hbcount : b ≤ m.itemCount)
    (hrun : ∀ i, i < b → a ≤ i →
        pyStartsWith (lowerStr (m.getString i)) pfx = true)
    (hfirst : ∀ i, i < a →
        pyStartsWith (lowerStr (m.getString i)) pfx = false)
    (hsentinel : ∀ i, i < b → a ≤ i →
        pyStrLt (pfx ++ ['z']) (lowerStr (m.getString i)) = false) :
    (FindByBisect m pfx 0 m.itemCount).1 = some a := by
  have hacount : a < m.itemCount := by omega
  -- the loop's comparison is `pfx ++ "z" ≥ row`, monotone along a descending list
  have hmono : ∀ i j, 0 ≤ i → i ≤ j → j < m.itemCount →
      bisectCond m.sortAscending (pfx ++ ['z']) (lowerStr (m.getString i)) = true →
      bisectCond m.sortAscending (pfx ++ ['z']) (lowerStr (m.getString j)) = true := by
    intro i j _ hij hj hi
    rw [hdesc, bisectCond_false] at hi ⊢
    rw [Bool.not_eq_true'] at hi ⊢
    exact pyStrLt_false_trans hi (hsorted j hj i hij)
  obtain ⟨h1, h2, h3, h4⟩ := bisectLoop_spec m.getString m.sortAscending (pfx ++ ['z'])
    (m.itemCount - 0) 0 m.itemCount 0 le_rfl (Nat.zero_le _) hmono
  set res := (bisectLoop m.getString m.sortAscending (pfx ++ ['z'])
    (m.itemCount - 0) 0 m.itemCount 0).1 with hres
  -- the comparison is true at `a` ...
  have hpa : bisectCond m.sortAscending (pfx ++ ['z']) (lowerStr (m.getString a)) = true := by
    rw [hdesc, bisectCond_false, Bool.not_eq_true']
    exact hsentinel a (by omega) le_rfl
  -- ... and false strictly before `a`
  have hpb : ∀ i, i < a →
      bisectCond m.sortAscending (pfx ++ ['z']) (lowerStr (m.getString i)) = false := by
    intro i hia
    rw [hdesc, bisectCond_false, Bool.not_eq_false']
    cases hci : pyStrLt (pfx ++ ['z']) (lowerStr (m.getString i)) with
    | true => rfl
    | false =>
        exfalso
        obtain ⟨t, ht⟩ :=
          List.isPrefixOf_iff_prefix.mp (hrun a (by omega) le_rfl)
        have hbetw : pyStrLt (lowerStr (m.getString i)) (pfx ++ t) = false := by
          rw [ht]
          exact hsorted a hacount i (by omega)
        have h5 : pyStartsWith (lowerStr (m.getString i)) pfx = true :=
          pyStartsWith_of_between pfx hbetw hci
        rw [hfirst i hia] at h5
        exact absurd h5 (by simp)
  -- hence the loop stops exactly at `a`
  have hresa : res = a := by
    rcases lt_trichotomy res a with h | h | h
    · have := h4 res le_rfl (by omega)
      rw [hpb res h] at this
      exact absurd this (by simp)
    · exact h
    · have := h3 a (Nat.zero_le _) h
      rw [hpa] at this
      exact absurd this (by simp)
  -- and the verified answer is row `a`
  have hsw := hrun a (by omega) le_rfl
  simp only [FindByBisect, hdesc, Bool.false_eq_true, if_false, bisectSearch]
  rw [hdesc] at hres
  rw [← hres, hresa]
  have hnot : ¬ (a < 0 ∨ m.itemCount ≤ a) := by omega
  rw [if_neg hnot, if_pos hsw]

/-- Witness for `FindByBisect_desc_first_of_run` on `descRun`
(`["c","bb","ba","a"]`, text `"b"`, run `[1, 3)`): the first matching row 1
is located. -/
theorem FindByBisect_desc_first_of_run_witness :
    descRun.sortAscending = false ∧
    (FindByBisect descRun ['b'] 0 descRun.itemCount).1 = some 1 :=
  ⟨rfl,
    FindByBisect_desc_first_of_run descRun ['b'] 1 3 rfl (by decide) (by decide)
      (by decide) (by decide) (by decide) (by decide)⟩

/-!
## Claims about the column accessors (C9, C10)
-/

/-- C9: `_Munge` is total on the modelled objects (it is a Lean function, so
it never raises) and, for every non-callable munger: a `None` munger yields
`None`; a string munger whose attribute lookup is non-`None` yields the
attribute (calling it when callable); otherwise — attribute absent, or an
integer munger, for which `getattr` raises a caught `TypeError` — indexing
yields the indexed value when it succeeds and `None` when it fails. -/
theorem Munge_noncallable_total_spec (o : PyObj) :
    (Munge o .mnone = .vnone) ∧
    (∀ s : String, o.attrs s ≠ .vnone →
        Munge o (.mname s) = (o.attrs s).callIfCallable) ∧
    (∀ (s : String) (v : PyVal), o.attrs s = .vnone → o.getitemStr s = some v →
        Munge o (.mname s) = v) ∧
    (∀ s : String, o.attrs s = .vnone → o.getitemStr s = none →
        Munge o (.mname s) = .vnone) ∧
    (∀ (i : Int) (v : PyVal), o.getitemInt i = some v → Munge o (.mint i) = v) ∧
    (∀ i : Int, o.getitemInt i = none → Munge o (.mint i) = .vnone) := by
  refine ⟨rfl, fun s h => by simp [Munge, h], fun s v h hv => by simp [Munge, h, hv],
    fun s h hv => by simp [Munge, h, hv], fun i v hv => by simp [Munge, hv],
    fun i hv => by simp [Munge, hv]⟩

/-- Witness for `Munge_noncallable_total_spec` on `obj₀`: all six behaviours
at concrete mungers. -/
theorem Munge_noncallable_total_spec_witness :
    Munge obj₀ .mnone = .vnone ∧
    Munge obj₀ (.mname "name") = .vstr "alice" ∧
    Munge obj₀ (.mname "age") = .vint 30 ∧
    Munge obj₀ (.mname "city") = .vstr "paris" ∧
    Munge obj₀ (.mname "zip") = .vnone ∧
    Munge obj₀ (.mint 0) = .vint 1 ∧
    Munge obj₀ (.mint 5) = .vnone :=
  ⟨(Munge_noncallable_total_spec obj₀).1,
    (Munge_noncallable_total_spec obj₀).2.1 "name" (by decide),
    (Munge_noncallable_total_spec obj₀).2.1 "age" (by decide),
    (Munge_noncallable_total_spec obj₀).2.2.1 "city" (.vstr "paris") (by decide) (by decide),
    (Munge_noncallable_total_spec obj₀).2.2.2.1 "zip" (by decide) (by decide),
    (Munge_noncallable_total_spec obj₀).2.2.2.2.1 0 (.vint 1) (by decide),
    (Munge_noncallable_total_spec obj₀).2.2.2.2.2 5 (by decide)⟩

/-- C10: with no string converter, every falsy column value — and `None`,
`False`, `0`, `0.0` and `""` are exactly the falsy modelled values — is
displayed as the empty string. -/
theorem GetStringValue_falsy_blank (col : ColumnDefn) (o : PyObj)
    (hc : col.stringConverter = .scnone)
    (hv : (col.GetValue o).truthy = false) :
    col.GetStringValue o = "" ∧
    (∀ v : PyVal,
        (v = .vnone ∨ v = .vbool false ∨ v = .vint 0 ∨ v = .vfloat 0 ∨ v = .vstr "") →
        v.truthy = false) := by
  constructor
  · simp [ColumnDefn.GetStringValue, hc, hv, StringConv.truthy, PyVal.isDatetimeLike]
  · rintro v (rfl | rfl | rfl | rfl | rfl) <;> simp [PyVal.truthy]

/-- Witness for `GetStringValue_falsy_blank`: the integer value 0 renders as
a blank cell, not as `"0"`. -/
theorem GetStringValue_falsy_blank_witness :
    colZero.stringConverter = .scnone ∧
    colZero.GetValue objZero = .vint 0 ∧
    (colZero.GetValue objZero).truthy = false ∧
    colZero.GetStringValue objZero = "" :=
  ⟨rfl, by decide, by decide,
    (GetStringValue_falsy_blank colZero objZero rfl (by decide)).1⟩

end OLV
